import Mathlib

/-
Formal model of the neo3 desktop-automation agent.

Shallow embedding of the relevant source modules:
  * tools/__init__.py        (the Tool contract and its success predicate)
  * vision/vision.py         (template key normalization, detection cache)
  * tools/retrieve_ui_reference.py and tools/vision_tools.py
                             (the lexical similarity scorer; both copies are
                             textually identical, one model covers both)
  * agent/registry.py        (ToolRegistry: conflict window and dispatch)
  * agent/planning.py        (PlanStep / ExecutionPlan state machine,
                             plan parsing, step readiness, blocked check)
  * agent/core.py            (the planning-mode execution loop's step
                             failure recording)

Python floats that carry exact decimal constants (2.0, 0.5, 0.9, 0.85,
1.2) are modelled as rationals; wall-clock readings of time.time() are
threaded as explicit rational parameters.
-/

namespace Neo3

/-- JSON values as produced by json.loads.  Numbers are modelled as
integers: the planning wire format declares every numeric field
(step_number, dependencies entries) as int. -/
inductive Json where
  | null : Json
  | bool (b : Bool) : Json
  | num (n : ℤ) : Json
  | str (s : String) : Json
  | arr (elems : List Json) : Json
  | obj (fields : List (String × Json)) : Json

/-- Python dict lookup d.get(k) on a JSON object's field list. -/
def jLookup (fields : List (String × Json)) (k : String) : Option Json :=
  (fields.find? (fun p => p.1 == k)).map (fun p => p.2)

end Neo3

namespace Neo3

/-! ## Tool contract (tools/__init__.py) -/

/-- A result mapping as inspected by Tool.is_successful: each present key
is paired with the truthiness of its value. -/
def ResultMap : Type := List (String × Bool)

/-- Truthiness of result[k] when k is present. -/
def ResultMap.lookup (r : ResultMap) (k : String) : Option Bool :=
  (List.find? (fun p => p.1 == k) r).map (fun p => p.2)

/-- Key membership test, Python `k in result`. -/
def ResultMap.hasKey (r : ResultMap) (k : String) : Bool :=
  (ResultMap.lookup r k).isSome

/-- Tool metadata relevant to result interpretation (class Tool). -/
structure Tool where
  success_keys : List String := ["success", "found", "ok"]
  failure_keys : List String := ["error"]

/-- Tool.is_successful from tools/__init__.py: first scan the declared
success keys for a present truthy value, then the failure keys for mere
presence, defaulting to success. -/
def Tool.is_successful (t : Tool) (result : ResultMap) : Bool :=
  if t.success_keys.any (fun k => (ResultMap.lookup result k).getD false) then
    true
  else if t.failure_keys.any (fun k => ResultMap.hasKey result k) then
    false
  else
    true

/-! ## Template key normalization (vision/vision.py, normalize_key) -/

/-- Index of the last occurrence of c, if any. -/
def lastIdxOf (c : Char) : List Char → Option ℕ
  | [] => none
  | x :: xs =>
    match lastIdxOf c xs with
    | some i => some (i + 1)
    | none => if x = c then some 0 else none

/-- Root part of os.path.splitext for a bare filename: cut at the last
dot, provided a non-dot character occurs before it (so ".hidden" keeps
its name whole). -/
def splitextRoot (cs : List Char) : List Char :=
  match lastIdxOf '.' cs with
  | none => cs
  | some i =>
    if (cs.take i).any (fun c => c ≠ '.') then cs.take i else cs

/-- Python str.replace("__", "_"): one left-to-right non-overlapping
pass. -/
def collapseDoubleUnderscore : List Char → List Char
  | '_' :: '_' :: rest => '_' :: collapseDoubleUnderscore rest
  | c :: rest => c :: collapseDoubleUnderscore rest
  | [] => []

/-- Python k.rsplit("_", 1)[0]: everything before the last underscore,
or the whole string when it has none. -/
def rsplitUnderscore (cs : List Char) : List Char :=
  match (cs.reverse.dropWhile (fun c => c ≠ '_')) with
  | [] => cs
  | _ :: rest => rest.reverse

/-- The fixed size/variant suffix list, in source order. -/
def variantSuffixes : List (List Char) :=
  ["_32".data, "_48".data, "_64".data, "_orig".data, "_var".data, "_alt".data]

/-- normalize_key from vision/vision.py: drop the extension, lower-case,
run the suffix-stripping loop over the fixed suffix list, collapse
double underscores. -/
def normalize_key (fname : String) : String :=
  let key := (splitextRoot fname.data).map Char.toLower
  let key := variantSuffixes.foldl
    (fun k suf => if suf.isSuffixOf k then rsplitUnderscore k else k) key
  ⟨collapseDoubleUnderscore key⟩

/-! ## Similarity scorer (tools/retrieve_ui_reference.py, duplicated
verbatim in tools/vision_tools.py) -/

/-- Python str.lower(). -/
def pyLower (s : String) : String := ⟨s.data.map Char.toLower⟩

/-- Python substring containment, `needle in hay`. -/
def isSubstr (needle hay : List Char) : Bool :=
  hay.tails.any (fun t => needle.isPrefixOf t)

/-- Python s.replace("_", " ").replace("-", " "). -/
def underscoreHyphenToSpace (cs : List Char) : List Char :=
  cs.map (fun c => if c = '_' ∨ c = '-' then ' ' else c)

/-- Python str.split() with no separator: split on whitespace runs,
discarding empty pieces. -/
def splitWhitespace (cs : List Char) : List String :=
  ((cs.splitOnP (fun c => c.isWhitespace)).filter (fun w => w ≠ [])).map
    (fun w => (⟨w⟩ : String))

/-- set(s.replace("_", " ").replace("-", " ").split()). -/
def tokenSet (s : String) : Finset String :=
  (splitWhitespace (underscoreHyphenToSpace s.data)).toFinset

/-- The fixed stop-word set. -/
def stopSet : Finset String :=
  (["the", "a", "an", "on", "in", "at", "to", "for", "of", "with"] :
    List String).toFinset

/-- _calculate_similarity, translated clause by clause from the source
(floats as rationals: 0.9 = 9/10, 0.85 = 17/20, 1.2 = 6/5). -/
def calculate_similarity (query target : String) : ℚ :=
  let q := pyLower query
  let t := pyLower target
  if q = t then 1
  else if isSubstr q.data t.data then 9/10
  else if isSubstr t.data q.data then 17/20
  else
    let query_words := tokenSet q \ stopSet
    let target_words := tokenSet t \ stopSet
    if query_words = ∅ ∨ target_words = ∅ then 0
    else
      let intersection := (query_words ∩ target_words).card
      let union := (query_words ∪ target_words).card
      if union = 0 then 0
      else
        let jaccard : ℚ := (intersection : ℚ) / (union : ℚ)
        let jaccard := if query_words ⊆ target_words then jaccard * (6/5) else jaccard
        min jaccard 1

/-- Reference scorer written from the specification text: Jaccard
similarity of the stop-word-filtered token sets, boosted by 1.2 on
query-token containment and clamped to 1, with 0.0 when either token
set is empty. -/
def jaccardReference (qw tw : Finset String) : ℚ :=
  if qw = ∅ ∨ tw = ∅ then 0
  else min (((qw ∩ tw).card : ℚ) / ((qw ∪ tw).card : ℚ) *
    (if qw ⊆ tw then 6/5 else 1)) 1

/-- Reference definition of the whole scorer, following the
specification wording. -/
def similarityReference (query target : String) : ℚ :=
  let q := pyLower query
  let t := pyLower target
  if q = t then 1
  else if isSubstr q.data t.data then 9/10
  else if isSubstr t.data q.data then 17/20
  else jaccardReference (tokenSet q \ stopSet) (tokenSet t \ stopSet)

/-! ## Detection cache (vision/vision.py, detect_all_templates) -/

/-- One entry of the hits dictionary: screen coordinates and match
score. -/
structure HitInfo where
  x : ℤ
  y : ℤ
  score : ℚ
deriving DecidableEq

/-- The hits dictionary returned by a detection pass. -/
abbrev Hits : Type := List (String × HitInfo)

/-- The 2.0 s cache time-to-live (_cache_ttl). -/
def cacheTTL : ℚ := 2

/-- detect_all_templates: null-screenshot guard, then the single-key
("detections") TTL cache, then the multi-template matching pass.  The
matching pass itself (lines 133-179, built on external image-processing
primitives) is abstracted as the computeHits parameter; the state is the
single cache slot, returned alongside the hits. -/
def detect_all_templates {Img : Type} (computeHits : Img → Hits)
    (screen_bgr : Option Img) (now : ℚ)
    (cache : Option (ℚ × Hits)) : Hits × Option (ℚ × Hits) :=
  match screen_bgr with
  | none => ([], cache)
  | some img =>
    match cache with
    | some (cached_time, cached_result) =>
      if now - cached_time < cacheTTL then (cached_result, cache)
      else
        let hits := computeHits img
        (hits, some (now, hits))
    | none =>
      let hits := computeHits img
      (hits, some (now, hits))

/-! ## Tool registry (agent/registry.py) -/

/-- Registry state: loaded tool names, per-tool last-call timestamps and
call counters, and the most recently invoked tool. -/
structure ToolRegistry where
  tools : List String
  last_call_time : List (String × ℚ)
  call_count : List (String × ℕ)
  last_tool : Option String

/-- self.last_call_time.get(name, 0). -/
def ToolRegistry.getLastCallTime (st : ToolRegistry) (name : String) : ℚ :=
  ((st.last_call_time.find? (fun p => p.1 == name)).map (fun p => p.2)).getD 0

/-- Current call counter of a tool (0 when the tool was never tracked,
matching the load_all initialization). -/
def ToolRegistry.getCallCount (st : ToolRegistry) (name : String) : ℕ :=
  ((st.call_count.find? (fun p => p.1 == name)).map (fun p => p.2)).getD 0

/-- The static conflict table, self.conflicts. -/
def conflicts : String → List String
  | "draw_overlay" => ["keyboard_shortcut", "mouse_click", "type_text"]
  | "keyboard_shortcut" => ["draw_overlay"]
  | "mouse_click" => ["draw_overlay"]
  | _ => []

/-- The 2.0 s conflict window of _has_conflict. -/
def conflictWindow : ℚ := 2

/-- _has_conflict: keyed off the invoked tool's own conflict list; the
lookup time now is the time.time() sample taken inside the method.
Python's `if not self.last_tool` is falsy for both None and "". -/
def ToolRegistry.has_conflict (st : ToolRegistry) (tool_name : String)
    (now : ℚ) : Bool :=
  match st.last_tool with
  | none => false
  | some lt =>
    if lt = "" then false
    else if lt ∈ conflicts tool_name then
      if now - st.getLastCallTime lt < conflictWindow then true else false
    else false

/-- The dispatch-relevant shape of the argument payload: call only
checks `args is None` (coerced to an empty dict) and
`isinstance(args, dict)`. -/
inductive ArgsShape where
  | nullArgs : ArgsShape
  | dictArgs : ArgsShape
  | nonDict : ArgsShape
deriving DecidableEq

/-- Outcome of invoking tool.run(**args); the tool body is external to
the registry and is abstracted by its outcome. -/
inductive RunOutcome (ρ : Type) where
  | ok (result : ρ)
  | typeError : RunOutcome ρ
  | raised : RunOutcome ρ

/-- Value returned by ToolRegistry.call: either the tool's own result,
or one of the structured failure dicts (each carries success: False and
the given error tag). -/
inductive CallResult (ρ : Type) where
  | failure (error : String)
  | result (r : ρ)

/-- Result of a dispatch: the returned value, the registry state after
the call, and whether control reached tool.run. -/
structure CallOutcome (ρ : Type) where
  result : CallResult ρ
  state : ToolRegistry
  ran : Bool

/-- The tracking update after tool.run returns (lines 96-98):
last_call_time[name] = time.time(), call_count[name] += 1,
last_tool = name. -/
def ToolRegistry.updateTracking (st : ToolRegistry) (tool_name : String)
    (t : ℚ) : ToolRegistry :=
  { st with
    last_call_time :=
      (tool_name, t) :: st.last_call_time.filter (fun p => !(p.1 == tool_name)),
    call_count :=
      (tool_name, st.getCallCount tool_name + 1) ::
        st.call_count.filter (fun p => !(p.1 == tool_name)),
    last_tool := some tool_name }

/-- ToolRegistry.call.  tConflict is the time.time() sample used by the
conflict check, tFinish the one stored after tool.run returns; the
cooldown branch only sleeps and leaves no trace in this state. -/
def ToolRegistry.call {ρ : Type} (st : ToolRegistry) (tool_name : String)
    (args : ArgsShape) (tConflict tFinish : ℚ) (run : RunOutcome ρ) :
    CallOutcome ρ :=
  if ¬ st.tools.contains tool_name then ⟨.failure "unknown_tool", st, false⟩
  else if args = .nonDict then ⟨.failure "invalid_arguments", st, false⟩
  else if st.has_conflict tool_name tConflict then
    ⟨.failure "tool_conflict", st, false⟩
  else
    match run with
    | .ok r => ⟨.result r, st.updateTracking tool_name tFinish, true⟩
    | .typeError => ⟨.failure "bad_tool_arguments", st, true⟩
    | .raised => ⟨.failure "tool_runtime_exception", st, true⟩

/-- Registry state in which mouse_click has just fired at time 0. -/
def afterMouseClick : ToolRegistry :=
  { tools := ["draw_overlay", "mouse_click", "type_text", "keyboard_shortcut"],
    last_call_time := [("mouse_click", 0)],
    call_count := [("mouse_click", 1)],
    last_tool := some "mouse_click" }

/-- Registry state in which draw_overlay has just fired at time 0. -/
def afterDrawOverlay : ToolRegistry :=
  { tools := ["draw_overlay", "mouse_click", "type_text", "keyboard_shortcut"],
    last_call_time := [("draw_overlay", 0)],
    call_count := [("draw_overlay", 1)],
    last_tool := some "draw_overlay" }

/-- A freshly loaded registry: all counters 0, no tool called yet. -/
def freshRegistry : ToolRegistry :=
  { tools := ["draw_overlay", "mouse_click", "type_text", "keyboard_shortcut"],
    last_call_time :=
      [("draw_overlay", 0), ("mouse_click", 0), ("type_text", 0),
        ("keyboard_shortcut", 0)],
    call_count :=
      [("draw_overlay", 0), ("mouse_click", 0), ("type_text", 0),
        ("keyboard_shortcut", 0)],
    last_tool := none }

/-! ## Planning (agent/planning.py and the failure recording of
agent/core.py) -/

/-- Status of a plan or of a single step. -/
inductive PlanStatus where
  | pending
  | in_progress
  | completed
  | failed
  | blocked
  | retrying
deriving DecidableEq

/-- A single step of an execution plan.  The dataclass stores the
untyped payloads exactly as parsed (Python does not enforce the field
annotations), so step_number, tool_name, arguments and purpose are JSON
values; dependencies is kept as the integer list it holds after plan
validation. -/
structure PlanStep where
  step_number : Json
  tool_name : Json
  arguments : Json
  purpose : Json
  dependencies : List ℤ
  status : PlanStatus := .pending
  result : Option Json := none
  error : Option Json := none
  retry_count : ℕ := 0
  max_retries : ℕ := 3
  started_at : Option ℚ := none
  completed_at : Option ℚ := none

/-- can_retry: retry_count < max_retries and status == FAILED. -/
def PlanStep.can_retry (s : PlanStep) : Bool :=
  decide (s.retry_count < s.max_retries) && (s.status == PlanStatus.failed)

/-- start: mark in_progress, record started_at. -/
def PlanStep.start (s : PlanStep) (t : ℚ) : PlanStep :=
  { s with status := .in_progress, started_at := some t }

/-- complete: mark completed, store the result, record completed_at. -/
def PlanStep.complete (s : PlanStep) (result : Json) (t : ℚ) : PlanStep :=
  { s with status := .completed, result := some result, completed_at := some t }

/-- fail: mark failed, store the error, record completed_at. -/
def PlanStep.fail (s : PlanStep) (error : Json) (t : ℚ) : PlanStep :=
  { s with status := .failed, error := some error, completed_at := some t }

/-- retry: increment retry_count, mark retrying, clear the error. -/
def PlanStep.retry (s : PlanStep) : PlanStep :=
  { s with retry_count := s.retry_count + 1, status := .retrying, error := none }

/-- A parsed plan (the timing fields of the dataclass are not touched by
the modelled operations). -/
structure ExecutionPlan where
  goal : String
  steps : List PlanStep
  current_step : ℕ := 0
  status : PlanStatus := .pending

/-- The dependency clause of get_next_executable_step: every in-range
dependency index (1-based) must name a completed step; out-of-range
values are filtered out of the generator and hence ignored. -/
def dependenciesMet (steps : List PlanStep) (s : PlanStep) : Bool :=
  s.dependencies.all (fun dep =>
    if 0 < dep ∧ dep ≤ (steps.length : ℤ) then
      ((steps.get? (dep - 1).toNat).map
        (fun st => st.status == PlanStatus.completed)).getD false
    else true)

/-- The scan loop of get_next_executable_step over the remaining steps,
with the full step list available for dependency lookups. -/
def findExecutable (steps : List PlanStep) : List PlanStep → Option PlanStep
  | [] => none
  | s :: rest =>
    if s.status = .completed ∨ s.status = .in_progress then
      findExecutable steps rest
    else if s.status = .failed then
      if s.can_retry then some s else findExecutable steps rest
    else if dependenciesMet steps s then some s
    else findExecutable steps rest

/-- get_next_executable_step on the planner's current_plan. -/
def get_next_executable_step : Option ExecutionPlan → Option PlanStep
  | none => none
  | some plan => findExecutable plan.steps plan.steps

/-- update_step_result: complete the step on a success verdict,
otherwise record the failure with result.get('error', 'Tool execution
failed').  The verdict `tool and tool.is_successful(result)` is passed
in as a Boolean; after a failure the method only prints the retry
message and does not modify the step further. -/
def update_step_result (step : PlanStep) (result : Json) (succ : Bool)
    (t : ℚ) : PlanStep :=
  if succ then step.complete result t
  else
    step.fail
      (match result with
        | .obj fields => (jLookup fields "error").getD (.str "Tool execution failed")
        | _ => .str "Tool execution failed") t

/-- is_plan_complete: every step completed. -/
def is_plan_complete : Option ExecutionPlan → Bool
  | none => false
  | some plan => plan.steps.all (fun s => s.status == PlanStatus.completed)

/-- Python == between a dependency integer and a stored step_number JSON
value (booleans compare as 0/1, other shapes compare unequal). -/
def jsonIntEq (j : Json) (d : ℤ) : Bool :=
  match j with
  | .num n => n == d
  | .bool b => (if b then (1 : ℤ) else 0) == d
  | _ => false

/-- is_plan_blocked: a permanently failed step with a pending/retrying
dependent, or pending/retrying steps with nothing executable. -/
def is_plan_blocked : Option ExecutionPlan → Bool
  | none => false
  | some plan =>
    let failed_steps := (plan.steps.filter
      (fun s => (s.status == PlanStatus.failed) && !s.can_retry)).map
        (fun s => s.step_number)
    let depOnFailed := !failed_steps.isEmpty &&
      plan.steps.any (fun s =>
        ((s.status == PlanStatus.pending) || (s.status == PlanStatus.retrying)) &&
        s.dependencies.any (fun dep => failed_steps.any (fun sn => jsonIntEq sn dep)))
    let has_pending := plan.steps.any (fun s =>
      (s.status == PlanStatus.pending) || (s.status == PlanStatus.retrying))
    let has_executable := (get_next_executable_step (some plan)).isSome
    depOnFailed || (has_pending && !has_executable)

/-! ## Plan parsing (DynamicPlanner.parse_plan_from_response) -/

/-- Python str.strip(). -/
def pyStrip (cs : List Char) : List Char :=
  ((cs.dropWhile Char.isWhitespace).reverse.dropWhile Char.isWhitespace).reverse

/-- Python str.replace(pat, rep) for a non-empty pattern: one
left-to-right non-overlapping pass, fuelled by the haystack length for
structural recursion. -/
def replaceSubAux (pat rep : List Char) : ℕ → List Char → List Char
  | 0, hay => hay
  | _, [] => []
  | fuel + 1, c :: rest =>
    if pat ≠ [] ∧ pat.isPrefixOf (c :: rest) then
      rep ++ replaceSubAux pat rep fuel ((c :: rest).drop pat.length)
    else c :: replaceSubAux pat rep fuel rest

/-- Python str.replace(pat, rep). -/
def replaceSub (pat rep hay : List Char) : List Char :=
  replaceSubAux pat rep hay.length hay

/-- The response cleaning step of parse_plan_from_response: strip, and
when the text starts with a fence, drop the first and last line and
erase any remaining fence markers. -/
def stripFence (response : String) : String :=
  let r := pyStrip response.data
  if "```".data.isPrefixOf r then
    let body := List.intercalate ['\n'] ((r.splitOn '\n').drop 1).dropLast
    ⟨replaceSub "```".data [] (replaceSub "```json".data [] body)⟩
  else ⟨r⟩

/-- Python-int view of a JSON value appearing where an int is compared
(bool is an int subtype). -/
def jsonToInt : Json → Option ℤ
  | .num n => some n
  | .bool b => some (if b then 1 else 0)
  | _ => none

/-- Iterating a step's dependencies field and comparing each entry with
ints: defined exactly when Python's validation loop raises no TypeError
(every element int-like; empty containers iterate trivially). -/
def depEntries : Json → Option (List ℤ)
  | .arr ds => ds.mapM jsonToInt
  | .str s => match s.data with | [] => some [] | _ => none
  | .obj [] => some []
  | .obj (_ :: _) => none
  | .null => none
  | .num _ => none
  | .bool _ => none

/-- A step as first constructed from step_data, before dependency
validation: the dependencies payload is still raw JSON. -/
structure RawStep where
  step_number : Json
  tool_name : Json
  arguments : Json
  purpose : Json
  dependencies : Json

/-- Construction of one PlanStep record from step_data: a missing
tool_name key raises KeyError (abort), the other fields default
(step_number to the 1-based position). -/
def buildStep (idx : ℕ) (stepData : Json) : Option RawStep :=
  match stepData with
  | .obj fields =>
    match jLookup fields "tool_name" with
    | none => none
    | some tn => some
      { step_number := (jLookup fields "step_number").getD (.num ((idx : ℤ) + 1)),
        tool_name := tn,
        arguments := (jLookup fields "arguments").getD (.obj []),
        purpose := (jLookup fields "purpose").getD (.str ""),
        dependencies := (jLookup fields "dependencies").getD (.arr []) }
  | _ => none

/-- The construction loop over plan_data['steps']. -/
def buildSteps : ℕ → List Json → Option (List RawStep)
  | _, [] => some []
  | idx, j :: rest => do
    let s ← buildStep idx j
    let others ← buildSteps (idx + 1) rest
    pure (s :: others)

/-- Dependency validation of one built step: entries outside
[1, step_count] are dropped. -/
def validateStep (n : ℕ) (raw : RawStep) : Option PlanStep := do
  let deps ← depEntries raw.dependencies
  pure
    { step_number := raw.step_number, tool_name := raw.tool_name,
      arguments := raw.arguments, purpose := raw.purpose,
      dependencies := deps.filter (fun d => decide (1 ≤ d) && decide (d ≤ (n : ℤ))) }

/-- The dependency validation loop over all built steps. -/
def validateSteps (n : ℕ) : List RawStep → Option (List PlanStep)
  | [] => some []
  | r :: rest => do
    let s ← validateStep n r
    let others ← validateSteps n rest
    pure (s :: others)

/-- Iterating plan_data['steps']: any JSON array iterates its elements;
empty strings and objects iterate nothing; everything else aborts with a
TypeError before or inside step construction. -/
def stepsElems : Json → Option (List Json)
  | .arr xs => some xs
  | .str s => match s.data with | [] => some [] | _ => none
  | .obj [] => some []
  | .obj (_ :: _) => none
  | .null => none
  | .num _ => none
  | .bool _ => none

/-- parse_plan_from_response.  json.loads is external; it is abstracted
as the decode parameter, applied to the fence-stripped response.  Every
caught exception path (decode failure, missing steps field, non-object
step, missing tool_name, non-int dependency entries) yields none. -/
def parse_plan_from_response (decode : String → Option Json)
    (response goal : String) : Option ExecutionPlan := do
  let planData ← decode (stripFence response)
  let fields ← (match planData with | .obj fs => some fs | _ => none)
  let stepsVal ← jLookup fields "steps"
  let stepJsons ← stepsElems stepsVal
  let raws ← buildSteps 0 stepJsons
  let steps ← validateSteps raws.length raws
  pure { goal := goal, steps := steps }

/-! ## Reference definitions and concrete fixtures used by the
theorems -/

/-- Reference normalization following the amended wording: iterate over
the fixed suffix list in order and, whenever the key currently ends
with the suffix, cut the suffix (with its underscore) off the end; then
collapse double underscores in one pass. -/
def normalizeKeyAmended (fname : String) : String :=
  let key := (splitextRoot fname.data).map Char.toLower
  let key := variantSuffixes.foldl
    (fun k suf => if suf.isSuffixOf k then k.take (k.length - suf.length) else k)
    key
  ⟨collapseDoubleUnderscore key⟩

/-- The readiness predicate of one step, as the specification words it:
completed and in_progress steps are never returned, a failed step is
eligible exactly when it can still retry, any other step exactly when
its in-range dependencies are all completed. -/
def eligibleStep (steps : List PlanStep) (s : PlanStep) : Bool :=
  if s.status = .completed ∨ s.status = .in_progress then false
  else if s.status = .failed then s.can_retry
  else dependenciesMet steps s

/-- A steps-array entry that survives step construction and dependency
validation: a JSON object with a tool_name key whose dependencies field
(defaulted to an empty array) iterates as int-like entries. -/
def wellFormedStep (j : Json) : Prop :=
  ∃ fs, j = Json.obj fs ∧ (jLookup fs "tool_name").isSome = true ∧
    ∃ ds, depEntries ((jLookup fs "dependencies").getD (.arr [])) = some ds

/-- The dependency list a steps-array entry ends up with in an n-step
plan: its int entries with the out-of-range ones dropped. -/
def stepDeps (n : ℕ) (j : Json) : Option (List ℤ) :=
  match j with
  | .obj fs =>
    (depEntries ((jLookup fs "dependencies").getD (.arr []))).map
      (fun ds => ds.filter (fun d => decide (1 ≤ d) && decide (d ≤ (n : ℤ))))
  | _ => none

/-- A two-step plan fixture: step A with no dependencies. -/
def stepOne : PlanStep :=
  { step_number := .num 1, tool_name := .str "mouse_click",
    arguments := .obj [], purpose := .str "step A", dependencies := [] }

/-- Step B of the fixture, depending on step A. -/
def stepTwo : PlanStep :=
  { step_number := .num 2, tool_name := .str "type_text",
    arguments := .obj [], purpose := .str "step B", dependencies := [1] }

/-- Step A marked completed. -/
def stepOneDone : PlanStep := { stepOne with status := .completed }

/-- Step A marked in_progress. -/
def stepOneRunning : PlanStep := { stepOne with status := .in_progress }

/-- Step B marked completed. -/
def stepTwoDone : PlanStep := { stepTwo with status := .completed }

/-- Plan wrapper for the readiness fixtures. -/
def mkPlan (steps : List PlanStep) : ExecutionPlan :=
  { goal := "two step fixture", steps := steps }

/-- The failing tool result recorded in the retry fixtures. -/
def boomResult : Json := .obj [("error", .str "boom")]

/-- One failed execution attempt of a step inside _execute_plan: the
step is marked in_progress by next_step.start() and the failure verdict
is then recorded by update_step_result. -/
def failingAttempt (s : PlanStep) (tStart tEnd : ℚ) : PlanStep :=
  update_step_result (s.start tStart) boomResult false tEnd

/-- Step A after three recorded failures of the execution loop. -/
def failedThrice : PlanStep :=
  failingAttempt (failingAttempt (failingAttempt stepOne 0 0) 1 1) 2 2

/-- The decode stand-in for json.loads on the text
'\x7b"steps": [\x7b\x7d]\x7d' (an object whose steps array holds one
empty object). -/
def decodeStepsOnly : String → Option Json := fun s =>
  if s = "\x7b\"steps\": [\x7b\x7d]\x7d" then
    some (.obj [("steps", .arr [.obj []])])
  else none

/-- Unfenced body of the two-step plan response whose second step
declares the invalid dependency 99. -/
def twoStepBody : String :=
  "\x7b\"steps\": [\x7b\"tool_name\": \"a\"\x7d, \x7b\"tool_name\": \"b\", \"dependencies\": [99]\x7d]\x7d"

/-- The decode stand-in for json.loads on twoStepBody. -/
def decodeTwoStep : String → Option Json := fun s =>
  if s = twoStepBody then
    some (.obj [("steps", .arr
      [.obj [("tool_name", .str "a")],
       .obj [("tool_name", .str "b"), ("dependencies", .arr [.num 99])]])])
  else none

/-! ## Helper lemmas -/

/-- Defaulted option truthiness agrees with storing a truthy value. -/
theorem getD_false_eq_true (o : Option Bool) :
    (o.getD false = true) ↔ o = some true := by
  cases o <;> simp

/-- dropWhile skips over a whole block of elements satisfying the
predicate. -/
theorem dropWhile_append_all {α : Type} (p : α → Bool) (l1 l2 : List α)
    (h : ∀ x ∈ l1, p x = true) :
    (l1 ++ l2).dropWhile p = l2.dropWhile p := by
  induction l1 with
  | nil => rfl
  | cons a l ih =>
    rw [List.cons_append, List.dropWhile_cons, if_pos (h a (by simp))]
    exact ih (fun x hx => h x (by simp [hx]))

/-- rsplit at the last underscore cuts an underscore-headed suffix whose
tail holds no further underscore. -/
theorem rsplit_cut (pre rest : List Char)
    (h : ∀ c ∈ rest, (decide (c ≠ '_')) = true) :
    rsplitUnderscore (pre ++ '_' :: rest) = pre := by
  have h1 : (pre ++ '_' :: rest).reverse = rest.reverse ++ '_' :: pre.reverse := by
    simp
  have h2 : (rest.reverse ++ '_' :: pre.reverse).dropWhile
      (fun c => decide (c ≠ '_')) = '_' :: pre.reverse := by
    rw [dropWhile_append_all _ _ _ (fun x hx => h x (by simpa using hx))]
    rw [List.dropWhile_cons, if_neg (by simp)]
  unfold rsplitUnderscore
  rw [h1, h2]
  simp

/-- The source's rsplit-based suffix stripping loop agrees with plain
end-cutting for suffixes shaped like the fixed variant suffixes. -/
theorem strip_foldl_eq (sufs : List (List Char))
    (hs : ∀ s ∈ sufs, ∃ rest, s = '_' :: rest ∧
      ∀ c ∈ rest, (decide (c ≠ '_')) = true) :
    ∀ k, sufs.foldl
        (fun k suf => if suf.isSuffixOf k then rsplitUnderscore k else k) k =
      sufs.foldl
        (fun k suf => if suf.isSuffixOf k then k.take (k.length - suf.length) else k) k := by
  induction sufs with
  | nil => intro k; rfl
  | cons s sufs ih =>
    intro k
    rw [List.foldl_cons, List.foldl_cons]
    have hstep : (if s.isSuffixOf k then rsplitUnderscore k else k) =
        (if s.isSuffixOf k then k.take (k.length - s.length) else k) := by
      by_cases hsuf : s.isSuffixOf k
      · rw [if_pos hsuf, if_pos hsuf]
        obtain ⟨pre, hpre⟩ := List.isSuffixOf_iff_suffix.mp hsuf
        obtain ⟨rest, hr, hall⟩ := hs s (by simp)
        subst hpre
        rw [hr, rsplit_cut pre rest hall]
        simp [List.take_left]
      · rw [if_neg hsuf, if_neg hsuf]
    rw [hstep]
    exact ih (fun s hsm => hs s (by simp [hsm])) _

/-! ## Claim theorems -/

/-- C9: for every tool and every result mapping, is_successful is true
when some declared success key is present with a truthy value,
otherwise false when some declared failure key is present, and true
when neither applies; the success-key scan takes precedence, and the
empty result mapping is judged successful. -/
theorem is_successful_policy :
    (∀ (t : Tool) (r : ResultMap),
      t.is_successful r =
        (if ∃ k ∈ t.success_keys, ResultMap.lookup r k = some true then true
         else if ∃ k ∈ t.failure_keys, (ResultMap.lookup r k).isSome = true then
           false
         else true)) ∧
    (∀ t : Tool, t.is_successful ([] : ResultMap) = true) := by
  constructor
  · intro t r
    simp only [Tool.is_successful, List.any_eq_true, getD_false_eq_true,
      ResultMap.hasKey]
  · intro t
    simp [Tool.is_successful, ResultMap.lookup, ResultMap.hasKey, List.find?]

/-- C4 counterexample: normalize_key("icon__alt.png") evaluates to
"icon_", not "icon": rsplit at the last underscore keeps the first of
the doubled underscores, and the later collapse pass then sees no
doubled underscore. -/
theorem normalize_key_icon_counterexample :
    normalize_key "icon__alt.png" = "icon_" ∧
    normalize_key "icon__alt.png" ≠ "icon" := by
  exact ⟨rfl, by decide⟩

/-- C4 amended: normalize_key drops the extension, lower-cases, then
iterates over the fixed suffix list in order, cutting off each suffix
(with its underscore) that the key currently ends with — so several
suffixes can be stripped, and a doubled underscore ahead of a suffix
leaves a single trailing underscore — and finally collapses double
underscores in one left-to-right pass; in particular
normalize_key("close_button_32.png") = "close_button",
normalize_key("icon__alt.png") = "icon_", and
normalize_key("x_64_48.png") = "x". -/
theorem normalize_key_amended :
    (∀ fname, normalize_key fname = normalizeKeyAmended fname) ∧
    normalize_key "close_button_32.png" = "close_button" ∧
    normalize_key "icon__alt.png" = "icon_" ∧
    normalize_key "x_64_48.png" = "x" := by
  refine ⟨?_, rfl, rfl, rfl⟩
  intro fname
  have hvs : ∀ s ∈ variantSuffixes, ∃ rest, s = '_' :: rest ∧
      ∀ c ∈ rest, (decide (c ≠ '_')) = true := by
    intro s hsm
    simp only [variantSuffixes, List.mem_cons, List.not_mem_nil, or_false] at hsm
    rcases hsm with rfl | rfl | rfl | rfl | rfl | rfl <;>
      exact ⟨_, rfl, by decide⟩
  simp only [normalize_key, normalizeKeyAmended]
  rw [strip_foldl_eq variantSuffixes hvs]

/-- C10: a null screenshot makes detect_all_templates return the empty
mapping and leave the cache slot (including its stored timestamp)
untouched, for every cache state; in particular a cached entry stored
1 s earlier — inside the 2 s TTL — is neither returned nor refreshed. -/
theorem null_screenshot_bypasses_cache :
    (∀ (Img : Type) (computeHits : Img → Hits) (now : ℚ)
        (cache : Option (ℚ × Hits)),
      detect_all_templates computeHits none now cache = ([], cache)) ∧
    detect_all_templates (fun _ : ℕ => []) none 1
        (some (0, [("close_button", ⟨10, 20, 1⟩)])) =
      ([], some (0, [("close_button", ⟨10, 20, 1⟩)])) :=
  ⟨fun _ _ _ _ => rfl, rfl⟩

/-- C5: when a detect_all_templates call misses the cache, it stores
its computed hits under the single global slot stamped with its own
call time, and a second call issued less than 2.0 s later with any
non-null image — the same one or a different one — returns exactly that
stored mapping and leaves the cache slot unchanged. -/
theorem detection_cache_ttl {Img : Type} (computeHits : Img → Hits)
    (c0 : Option (ℚ × Hits)) (img1 img2 : Img) (t1 t2 : ℚ)
    (hmiss : ∀ tc r, c0 = some (tc, r) → ¬(t1 - tc < cacheTTL))
    (httl : t2 - t1 < cacheTTL) :
    detect_all_templates computeHits (some img1) t1 c0 =
      (computeHits img1, some (t1, computeHits img1)) ∧
    detect_all_templates computeHits (some img2) t2
        (some (t1, computeHits img1)) =
      (computeHits img1, some (t1, computeHits img1)) := by
  constructor
  · cases c0 with
    | none => rfl
    | some p =>
      obtain ⟨tc, r⟩ := p
      have h := hmiss tc r rfl
      simp [detect_all_templates, h]
  · simp [detect_all_templates, httl]

/-- C5 witness: empty initial cache, first call at time 0 on image 5,
second call at time 1 on the different image 9: the second call returns
the hits stored by the first. -/
theorem detection_cache_ttl_witness :
    detect_all_templates (fun n : ℕ => [("tmpl", ⟨n, 0, 1⟩)]) (some 5) 0 none =
      ([("tmpl", ⟨5, 0, 1⟩)], some (0, [("tmpl", ⟨5, 0, 1⟩)])) ∧
    detect_all_templates (fun n : ℕ => [("tmpl", ⟨n, 0, 1⟩)]) (some 9) 1
        (some (0, [("tmpl", ⟨5, 0, 1⟩)])) =
      ([("tmpl", ⟨5, 0, 1⟩)], some (0, [("tmpl", ⟨5, 0, 1⟩)])) := by
  have h := detection_cache_ttl (fun n : ℕ => [("tmpl", ⟨n, 0, 1⟩)]) none 5 9 0 1
    (fun tc r hc => by cases hc) (by norm_num [cacheTTL])
  exact h

/-- C2 (the code evaluated at the failing input): the execution loop
records step failures through update_step_result, which never calls
PlanStep.retry; after three recorded failures of a step with
max_retries = 3, its retry_count is still 0, its error is kept rather
than cleared, can_retry() is still true, the step is immediately
returned as executable again, and a plan holding a dependent second
step is not reported blocked.  PlanStep.retry itself would increment
the counter and clear the error, but nothing invokes it. -/
theorem retry_count_never_incremented :
    failedThrice.retry_count = 0 ∧
    failedThrice.max_retries = 3 ∧
    failedThrice.status = PlanStatus.failed ∧
    failedThrice.error = some (.str "boom") ∧
    failedThrice.can_retry = true ∧
    get_next_executable_step (some (mkPlan [failedThrice, stepTwo])) =
      some failedThrice ∧
    is_plan_blocked (some (mkPlan [failedThrice, stepTwo])) = false ∧
    (PlanStep.retry stepOne).retry_count = 1 ∧
    (PlanStep.retry stepOne).error = none ∧
    (PlanStep.retry stepOne).status = PlanStatus.retrying :=
  ⟨rfl, rfl, rfl, rfl, rfl, rfl, rfl, rfl, rfl, rfl⟩

/-- The scan loop returns the first remaining step satisfying the
readiness predicate. -/
theorem findExecutable_eq_find (all : List PlanStep) :
    ∀ l, findExecutable all l = l.find? (eligibleStep all) := by
  intro l
  induction l with
  | nil => rfl
  | cons s rest ih =>
    by_cases h1 : s.status = .completed ∨ s.status = .in_progress
    · simp [findExecutable, eligibleStep, List.find?_cons, h1, ih]
    · by_cases h2 : s.status = .failed
      · cases hc : s.can_retry <;>
          simp [findExecutable, eligibleStep, List.find?_cons, h1, h2, hc, ih]
      · cases hd : dependenciesMet all s <;>
          simp [findExecutable, eligibleStep, List.find?_cons, h1, h2, hd, ih]

/-- C6: get_next_executable_step scans the plan's steps in order and
returns the first eligible one — skipping completed and in_progress
steps, returning a failed step exactly when it can still retry and
skipping it permanently otherwise, and treating any other step as
eligible exactly when each in-range dependency (out-of-range values
ignored) names a completed step; for the two-step fixture A(deps=[]),
B(deps=[A]) it returns A first, not B while A is merely in_progress,
B once A is completed, and none when both are completed. -/
theorem get_next_executable_step_spec :
    (∀ plan : ExecutionPlan,
      get_next_executable_step (some plan) =
        plan.steps.find? (eligibleStep plan.steps)) ∧
    get_next_executable_step none = none ∧
    get_next_executable_step (some (mkPlan [stepOne, stepTwo])) = some stepOne ∧
    get_next_executable_step (some (mkPlan [stepOneRunning, stepTwo])) = none ∧
    get_next_executable_step (some (mkPlan [stepOneDone, stepTwo])) =
      some stepTwo ∧
    get_next_executable_step (some (mkPlan [stepOneDone, stepTwoDone])) = none :=
  ⟨fun plan => findExecutable_eq_find plan.steps plan.steps,
    rfl, rfl, rfl, rfl, rfl⟩

/-- C1: a dispatch of a known tool whose conflict list contains the
most recently invoked tool, when that tool's last call lies less than
2.0 s back, returns the structured tool_conflict failure (success
false) without reaching run and without touching the state; the check
keys off the invoked tool, so draw_overlay 1.5 s after mouse_click is
rejected whatever run would do, type_text immediately after
draw_overlay runs, and draw_overlay a full 2.0 s after mouse_click
runs. -/
theorem registry_conflict_rule :
    (∀ (st : ToolRegistry) (tool_name lt : String) (args : ArgsShape)
        (t1 t2 : ℚ) (ρ : Type) (run : RunOutcome ρ),
      st.tools.contains tool_name = true →
      args ≠ .nonDict →
      st.last_tool = some lt →
      lt ≠ "" →
      lt ∈ conflicts tool_name →
      t1 - st.getLastCallTime lt < conflictWindow →
      st.call tool_name args t1 t2 run =
        ⟨.failure "tool_conflict", st, false⟩) ∧
    (∀ (ρ : Type) (run : RunOutcome ρ) (t2 : ℚ),
      afterMouseClick.call "draw_overlay" .dictArgs (3/2) t2 run =
        ⟨.failure "tool_conflict", afterMouseClick, false⟩) ∧
    (∀ (ρ : Type) (r : ρ) (t2 : ℚ),
      afterDrawOverlay.call "type_text" .dictArgs 0 t2 (.ok r) =
        ⟨.result r, afterDrawOverlay.updateTracking "type_text" t2, true⟩) ∧
    (∀ (ρ : Type) (r : ρ) (t2 : ℚ),
      afterMouseClick.call "draw_overlay" .dictArgs 2 t2 (.ok r) =
        ⟨.result r, afterMouseClick.updateTracking "draw_overlay" t2, true⟩) := by
  refine ⟨?_, ?_, ?_, ?_⟩
  · intro st tool_name lt args t1 t2 ρ run hmem hargs hlast hne hconf ht
    have hc : st.has_conflict tool_name t1 = true := by
      simp [ToolRegistry.has_conflict, hlast, hne, hconf, ht]
    unfold ToolRegistry.call
    rw [if_neg (fun h => h hmem), if_neg hargs, if_pos hc]
  · intro ρ run t2
    have hrat : (3/2 : ℚ) - afterMouseClick.getLastCallTime "mouse_click" <
        conflictWindow := by
      rw [show afterMouseClick.getLastCallTime "mouse_click" = 0 from rfl]
      norm_num [conflictWindow]
    have hc : afterMouseClick.has_conflict "draw_overlay" (3/2) = true := by
      show (if ("mouse_click" : String) = "" then false
        else if "mouse_click" ∈ conflicts "draw_overlay" then
          if (3/2 : ℚ) - afterMouseClick.getLastCallTime "mouse_click" <
              conflictWindow then true
          else false
        else false) = true
      rw [if_neg (by decide), if_pos (by decide), if_pos hrat]
    unfold ToolRegistry.call
    rw [if_neg (by decide), if_neg (by decide), if_pos hc]
  · intro ρ r t2
    have hc : afterDrawOverlay.has_conflict "type_text" 0 = false := rfl
    unfold ToolRegistry.call
    rw [if_neg (by decide), if_neg (by decide), if_neg (by simp [hc])]
  · intro ρ r t2
    have hrat : ¬((2 : ℚ) - afterMouseClick.getLastCallTime "mouse_click" <
        conflictWindow) := by
      rw [show afterMouseClick.getLastCallTime "mouse_click" = 0 from rfl]
      norm_num [conflictWindow]
    have hc : afterMouseClick.has_conflict "draw_overlay" 2 = false := by
      show (if ("mouse_click" : String) = "" then false
        else if "mouse_click" ∈ conflicts "draw_overlay" then
          if (2 : ℚ) - afterMouseClick.getLastCallTime "mouse_click" <
              conflictWindow then true
          else false
        else false) = false
      rw [if_neg (by decide), if_pos (by decide), if_neg hrat]
    unfold ToolRegistry.call
    rw [if_neg (by decide), if_neg (by decide), if_neg (by simp [hc])]

/-- C1 witness: the conflict clause applied to draw_overlay invoked 1 s
after mouse_click. -/
theorem registry_conflict_rule_witness :
    afterMouseClick.call "draw_overlay" ArgsShape.dictArgs 1 1
        (RunOutcome.ok Json.null) =
      ⟨CallResult.failure "tool_conflict", afterMouseClick, false⟩ :=
  registry_conflict_rule.1 afterMouseClick "draw_overlay" "mouse_click"
    .dictArgs 1 1 Json (.ok Json.null) (by decide) (by decide) rfl
    (by decide) (by decide)
    (by rw [show afterMouseClick.getLastCallTime "mouse_click" = 0 from rfl]
        norm_num [conflictWindow])

/-- C3 counterexample: a dispatch of the known tool type_text whose run
raises TypeError returns the structured bad_tool_arguments failure, yet
the registry state is returned unchanged — the call counter stays 0 and
the most-recent-tool pointer stays empty — although control reached
run, contradicting the claimed update on any outcome. -/
theorem call_exception_no_tracking_counterexample :
    (freshRegistry.call "type_text" .dictArgs 1 1
        (RunOutcome.typeError : RunOutcome Json)).result =
      CallResult.failure "bad_tool_arguments" ∧
    (freshRegistry.call "type_text" .dictArgs 1 1
        (RunOutcome.typeError : RunOutcome Json)).ran = true ∧
    (freshRegistry.call "type_text" .dictArgs 1 1
        (RunOutcome.typeError : RunOutcome Json)).state = freshRegistry ∧
    (freshRegistry.call "type_text" .dictArgs 1 1
        (RunOutcome.typeError : RunOutcome Json)).state.getCallCount
        "type_text" = 0 ∧
    (freshRegistry.call "type_text" .dictArgs 1 1
        (RunOutcome.typeError : RunOutcome Json)).state.last_tool = none :=
  ⟨rfl, rfl, rfl, rfl, rfl⟩

/-- C3 amended: for a dispatch that reaches run (known tool, mapping
arguments, no conflict), the last-call timestamp, call counter and
most-recent-tool pointer are updated exactly when run returns — its
result, success or failure alike, is passed through — while a TypeError
becomes a bad_tool_arguments failure and any other exception a
tool_runtime_exception failure, both returned as structured results
with the tracking state left unchanged. -/
theorem call_tracking_on_return (st : ToolRegistry) (tool_name : String)
    (args : ArgsShape) (t1 t2 : ℚ) (ρ : Type)
    (hmem : st.tools.contains tool_name = true)
    (hargs : args ≠ .nonDict)
    (hconf : st.has_conflict tool_name t1 = false) :
    (∀ r : ρ, st.call tool_name args t1 t2 (.ok r) =
      ⟨.result r, st.updateTracking tool_name t2, true⟩) ∧
    st.call tool_name args t1 t2 (RunOutcome.typeError : RunOutcome ρ) =
      ⟨.failure "bad_tool_arguments", st, true⟩ ∧
    st.call tool_name args t1 t2 (RunOutcome.raised : RunOutcome ρ) =
      ⟨.failure "tool_runtime_exception", st, true⟩ ∧
    (st.updateTracking tool_name t2).last_tool = some tool_name ∧
    (st.updateTracking tool_name t2).getCallCount tool_name =
      st.getCallCount tool_name + 1 ∧
    (st.updateTracking tool_name t2).getLastCallTime tool_name = t2 := by
  have hcall : ∀ run : RunOutcome ρ, st.call tool_name args t1 t2 run =
      (match run with
        | .ok r => ⟨.result r, st.updateTracking tool_name t2, true⟩
        | .typeError => ⟨.failure "bad_tool_arguments", st, true⟩
        | .raised => ⟨.failure "tool_runtime_exception", st, true⟩) := by
    intro run
    unfold ToolRegistry.call
    rw [if_neg (fun h => h hmem), if_neg hargs, if_neg (by simp [hconf])]
  refine ⟨fun r => hcall (.ok r), hcall .typeError, hcall .raised, rfl, ?_, ?_⟩
  · simp [ToolRegistry.updateTracking, ToolRegistry.getCallCount, List.find?]
  · simp [ToolRegistry.updateTracking, ToolRegistry.getLastCallTime, List.find?]

/-- C3 amended witness: a successful mouse_click dispatch on the fresh
registry updates the tracking state; its counter becomes 1. -/
theorem call_tracking_on_return_witness :
    freshRegistry.call "mouse_click" ArgsShape.dictArgs 0 1
        (RunOutcome.ok Json.null) =
      ⟨CallResult.result Json.null,
        freshRegistry.updateTracking "mouse_click" 1, true⟩ ∧
    (freshRegistry.updateTracking "mouse_click" 1).getCallCount
      "mouse_click" = 1 := by
  have h := call_tracking_on_return freshRegistry "mouse_click" .dictArgs 0 1
    Json (by decide) (by decide) rfl
  exact ⟨h.1 Json.null, (h.2.2.2.2.1).trans rfl⟩

/-- The Jaccard branch of the source scorer (with its dead union-size
guard and its two-sided boost conditional) agrees with the reference
formulation. -/
theorem jaccard_branch_eq (qw tw : Finset String) :
    (if qw = ∅ ∨ tw = ∅ then (0 : ℚ)
     else if (qw ∪ tw).card = 0 then 0
     else min
       (if qw ⊆ tw then ((qw ∩ tw).card : ℚ) / ((qw ∪ tw).card : ℚ) * (6/5)
        else ((qw ∩ tw).card : ℚ) / ((qw ∪ tw).card : ℚ)) 1) =
      jaccardReference qw tw := by
  unfold jaccardReference
  by_cases hD : qw = ∅ ∨ tw = ∅
  · rw [if_pos hD, if_pos hD]
  · rw [if_neg hD, if_neg hD]
    have hu : (qw ∪ tw).card ≠ 0 := by
      rcases not_or.mp hD with ⟨hq, _⟩
      intro h
      exact hq (Finset.union_eq_empty.mp (Finset.card_eq_zero.mp h)).1
    rw [if_neg hu]
    by_cases hS : qw ⊆ tw
    · rw [if_pos hS, if_pos hS]
    · rw [if_neg hS, if_neg hS, mul_one]

set_option maxHeartbeats 1600000 in
/-- C8: the similarity scorer equals the reference definition — 1.0 on
case-normalized equality, 0.9 when the query is a substring of the
target, 0.85 the other way round, and otherwise the stop-word-filtered
Jaccard score with the 1.2 containment boost clamped at 1.0 — never
exceeds 1.0, returns 0.0 in the token branch whenever the filtered
token sets are disjoint, and scores the specification's examples as
stated. -/
theorem similarity_matches_reference :
    (∀ query target,
      calculate_similarity query target = similarityReference query target) ∧
    (∀ query target, calculate_similarity query target ≤ 1) ∧
    (∀ query target,
      pyLower query ≠ pyLower target →
      isSubstr (pyLower query).data (pyLower target).data = false →
      isSubstr (pyLower target).data (pyLower query).data = false →
      tokenSet (pyLower query) \ stopSet ∩ (tokenSet (pyLower target) \ stopSet) = ∅ →
      calculate_similarity query target = 0) ∧
    calculate_similarity "youtube_logo" "youtube_logo" = 1 ∧
    calculate_similarity "youtube" "youtube_logo" = 9/10 := by
  refine ⟨?_, ?_, ?_, ?_, ?_⟩
  · intro query target
    simp only [calculate_similarity, similarityReference]
    by_cases h1 : pyLower query = pyLower target
    · rw [if_pos h1, if_pos h1]
    · rw [if_neg h1, if_neg h1]
      by_cases h2 : isSubstr (pyLower query).data (pyLower target).data = true
      · rw [if_pos h2, if_pos h2]
      · rw [if_neg h2, if_neg h2]
        by_cases h3 : isSubstr (pyLower target).data (pyLower query).data = true
        · rw [if_pos h3, if_pos h3]
        · rw [if_neg h3, if_neg h3]
          exact jaccard_branch_eq _ _
  · intro query target
    simp only [calculate_similarity]
    split_ifs <;> first
      | norm_num
      | exact min_le_right _ _
  · intro query target h1 h2 h3 hdisj
    simp only [calculate_similarity]
    rw [if_neg h1, if_neg (by simp [h2]), if_neg (by simp [h3])]
    by_cases hD : tokenSet (pyLower query) \ stopSet = ∅ ∨
        tokenSet (pyLower target) \ stopSet = ∅
    · rw [if_pos hD]
    · rw [if_neg hD]
      have hu : ((tokenSet (pyLower query) \ stopSet) ∪
          (tokenSet (pyLower target) \ stopSet)).card ≠ 0 := by
        rcases not_or.mp hD with ⟨hq, _⟩
        intro h
        exact hq (Finset.union_eq_empty.mp (Finset.card_eq_zero.mp h)).1
      rw [if_neg hu]
      have hi : ((tokenSet (pyLower query) \ stopSet) ∩
          (tokenSet (pyLower target) \ stopSet)).card = 0 := by
        rw [hdisj]
        exact Finset.card_empty
      rw [hi]
      simp
  · unfold calculate_similarity
    rw [if_pos rfl]
  · unfold calculate_similarity
    rw [if_neg (by decide), if_pos (by decide)]

/-- C8 witness: the zero-score clause applied to the token-disjoint
pair "dog" / "cat", with every hypothesis checked by evaluation. -/
theorem similarity_matches_reference_witness :
    pyLower "dog" ≠ pyLower "cat" ∧ calculate_similarity "dog" "cat" = 0 :=
  ⟨by decide, similarity_matches_reference.2.2.1 "dog" "cat" (by decide)
    (by decide) (by decide) (by decide)⟩

/-- C7 counterexample: on the response '\x7b"steps": [\x7b\x7d]\x7d'
decoding succeeds and the steps field is present with one entry, yet
parse_plan_from_response returns no plan — the entry carries no
tool_name key, so the KeyError aborts parsing — refuting "otherwise it
returns a plan with the same step count as the input steps array". -/
theorem parse_plan_counterexample :
    decodeStepsOnly "\x7b\"steps\": [\x7b\x7d]\x7d" =
      some (.obj [("steps", .arr [.obj []])]) ∧
    parse_plan_from_response decodeStepsOnly "\x7b\"steps\": [\x7b\x7d]\x7d"
      "goal" = none :=
  ⟨rfl, rfl⟩

/-- Step construction succeeds on well-formed step entries and records
each entry's dependencies payload. -/
theorem buildSteps_ok : ∀ (l : List Json) (i : ℕ),
    (∀ j ∈ l, wellFormedStep j) →
    ∃ raws, buildSteps i l = some raws ∧
      List.Forall₂ (fun j r => ∃ fs, j = Json.obj fs ∧
        RawStep.dependencies r = (jLookup fs "dependencies").getD (.arr [])) l
        raws := by
  intro l
  induction l with
  | nil => exact fun i h => ⟨[], rfl, List.Forall₂.nil⟩
  | cons j rest ih =>
    intro i h
    obtain ⟨fs, hfs, htn, hds⟩ := h j (by simp)
    obtain ⟨raws, hb, hf⟩ := ih (i + 1) (fun x hx => h x (by simp [hx]))
    subst hfs
    obtain ⟨tn, htn'⟩ := Option.isSome_iff_exists.mp htn
    refine ⟨{ step_number := (jLookup fs "step_number").getD (.num ((i : ℤ) + 1)),
              tool_name := tn,
              arguments := (jLookup fs "arguments").getD (.obj []),
              purpose := (jLookup fs "purpose").getD (.str ""),
              dependencies := (jLookup fs "dependencies").getD (.arr []) } ::
            raws, ?_, ?_⟩
    · simp [buildSteps, buildStep, htn', hb]
    · exact List.Forall₂.cons ⟨fs, rfl, rfl⟩ hf

/-- Dependency validation succeeds on the raw steps built from
well-formed entries, and each resulting step carries that entry's
int-converted, range-filtered dependency list. -/
theorem validateSteps_ok (n : ℕ) : ∀ (l : List Json) (raws : List RawStep),
    List.Forall₂ (fun j r => ∃ fs, j = Json.obj fs ∧
      RawStep.dependencies r = (jLookup fs "dependencies").getD (.arr [])) l
      raws →
    (∀ j ∈ l, wellFormedStep j) →
    ∃ steps, validateSteps n raws = some steps ∧
      List.Forall₂ (fun j s => stepDeps n j = some (PlanStep.dependencies s)) l
        steps := by
  intro l raws hf
  induction hf with
  | nil => exact fun _ => ⟨[], rfl, List.Forall₂.nil⟩
  | @cons j r l' raws' hjr hrest ih =>
    intro h
    obtain ⟨steps', hm, hf'⟩ := ih (fun x hx => h x (by simp [hx]))
    obtain ⟨fs, hfs, hdep⟩ := hjr
    obtain ⟨fs2, hfs2, _, ds, hds⟩ := h j (by simp)
    have hfs12 : fs2 = fs := by
      rw [hfs] at hfs2
      exact (Json.obj.injEq fs2 fs).mp hfs2.symm
    subst hfs12
    have hv : validateStep n r = some
        { step_number := r.step_number, tool_name := r.tool_name,
          arguments := r.arguments, purpose := r.purpose,
          dependencies := ds.filter
            (fun d => decide (1 ≤ d) && decide (d ≤ (n : ℤ))) } := by
      unfold validateStep
      rw [hdep, hds]
      rfl
    refine ⟨{ step_number := r.step_number, tool_name := r.tool_name,
              arguments := r.arguments, purpose := r.purpose,
              dependencies := ds.filter
                (fun d => decide (1 ≤ d) && decide (d ≤ (n : ℤ))) } :: steps',
            ?_, ?_⟩
    · unfold validateSteps
      rw [hv, hm]
      rfl
    · refine List.Forall₂.cons ?_ hf'
      simp [stepDeps, hfs, hds]

/-- Members on the right of a Forall₂ relation have a related member on
the left. -/
theorem forall₂_exists_left {α β : Type} {R : α → β → Prop} :
    ∀ {l₁ : List α} {l₂ : List β}, List.Forall₂ R l₁ l₂ →
      ∀ b ∈ l₂, ∃ a, R a b := by
  intro l₁ l₂ hf
  induction hf with
  | nil => intro b hb; cases hb
  | cons hab hrest ih =>
    intro b hb
    rcases List.mem_cons.mp hb with rfl | hb2
    · exact ⟨_, hab⟩
    · exact ih b hb2

/-- C7 amended: parse_plan_from_response strips a wrapping Markdown
code fence (json language tag included) before decoding; decode failure
or a missing steps field yields no plan; and provided every entry of
the steps array is a JSON object with a tool_name key whose
dependencies payload (defaulted to an empty array) is a list of
int-like values, it returns a plan with the same step count in which
each step keeps exactly its in-range dependencies — every value outside
[1, step_count] is dropped; in particular the fenced two-step plan
whose second step declares dependencies [99] parses with both steps and
an emptied dependency list. -/
theorem parse_plan_amended :
    (∀ (decode : String → Option Json) (response goal : String)
        (fields : List (String × Json)) (stepJsons : List Json),
      decode (stripFence response) = some (.obj fields) →
      jLookup fields "steps" = some (.arr stepJsons) →
      (∀ j ∈ stepJsons, wellFormedStep j) →
      ∃ plan, parse_plan_from_response decode response goal = some plan ∧
        plan.steps.length = stepJsons.length ∧
        List.Forall₂
          (fun j s => stepDeps stepJsons.length j = some (PlanStep.dependencies s))
          stepJsons plan.steps ∧
        ∀ s ∈ plan.steps, ∀ d ∈ s.dependencies,
          1 ≤ d ∧ d ≤ (stepJsons.length : ℤ)) ∧
    parse_plan_from_response decodeTwoStep
        ("```json\n" ++ twoStepBody ++ "\n```") "g" =
      some { goal := "g", steps :=
        [{ step_number := .num 1, tool_name := .str "a", arguments := .obj [],
           purpose := .str "", dependencies := [] },
         { step_number := .num 2, tool_name := .str "b", arguments := .obj [],
           purpose := .str "", dependencies := [] }] } := by
  constructor
  · intro decode response goal fields stepJsons hdec hsteps hwf
    obtain ⟨raws, hb, hfr⟩ := buildSteps_ok stepJsons 0 hwf
    have hlen : stepJsons.length = raws.length := hfr.length_eq
    obtain ⟨steps, hm, hfs⟩ := validateSteps_ok raws.length stepJsons raws hfr hwf
    have hlen2 : stepJsons.length = steps.length := hfs.length_eq
    refine ⟨{ goal := goal, steps := steps }, ?_, ?_, ?_, ?_⟩
    · simp [parse_plan_from_response, hdec, hsteps, stepsElems, hb, hm]
    · exact hlen2.symm
    · rw [← hlen] at hfs
      exact hfs
    · intro s hs d hd
      obtain ⟨j, hj⟩ := forall₂_exists_left hfs s hs
      rcases hj2 : j with _ | _ | _ | _ | _ | fs <;> rw [hj2] at hj <;>
        simp [stepDeps] at hj
      obtain ⟨ds, hds, hfilter⟩ := hj
      rw [← hfilter] at hd
      have hmem := List.of_mem_filter hd
      rw [Bool.and_eq_true, decide_eq_true_eq, decide_eq_true_eq] at hmem
      rw [hlen]
      exact hmem
  · rfl

/-- C7 amended witness: the general clause applied to the unfenced
two-step body: a plan with 2 steps is returned. -/
theorem parse_plan_amended_witness :
    ∃ plan, parse_plan_from_response decodeTwoStep twoStepBody "g" = some plan ∧
      plan.steps.length = 2 := by
  have hwf : ∀ j ∈ [Json.obj [("tool_name", Json.str "a")],
      Json.obj [("tool_name", Json.str "b"),
        ("dependencies", Json.arr [Json.num 99])]], wellFormedStep j := by
    intro j hj
    rcases List.mem_cons.mp hj with rfl | hj2
    · exact ⟨_, rfl, rfl, [], rfl⟩
    · rcases List.mem_cons.mp hj2 with rfl | hj3
      · exact ⟨_, rfl, rfl, [99], rfl⟩
      · cases hj3
  obtain ⟨plan, hp, hlen, _, _⟩ :=
    parse_plan_amended.1 decodeTwoStep twoStepBody "g" _ _ rfl rfl hwf
  exact ⟨plan, hp, hlen.trans rfl⟩

end Neo3
